import Mathlib

/-
Verification of the image-uploader pipeline (src/upload.py and
src/ImageUploader/ImageUploader.py) against its specification.

Each Python operation the claims touch is shallowly embedded as an
executable Lean definition; image contents, the filesystem and the HTTP
transport are abstracted as explicit parameters or small state types,
while the control flow of each method is translated line by line.
-/

namespace ImageUploader

/-- FILE_SIZE_LIMIT = 1000000 bytes (class constant). -/
def FILE_SIZE_LIMIT : Nat := 1000000

/-- MAX_RESIZE_PASSES = 50 (class constant). -/
def MAX_RESIZE_PASSES : Nat := 50

/-- The while loop of compress_image.  The image on disk is abstracted as a
state of type a together with a size measure sz (os.stat st_size after
each save) and a re-encode step shrink (open, thumbnail at 0.80, save in
place).  Guard as in the source: size > limit and not (passes > maxPasses);
the body increments passes, re-encodes once and re-measures.  Returns the
final pass counter (number of re-encodes performed, starting from the given
passes) and the final image state. -/
def compress_image_loop {α : Type} (sz : α → Nat) (shrink : α → α)
    (limit maxPasses passes : Nat) (st : α) : Nat × α :=
  if h : sz st > limit ∧ ¬ (passes > maxPasses) then
    compress_image_loop sz shrink limit maxPasses (passes + 1) (shrink st)
  else
    (passes, st)
termination_by maxPasses + 1 - passes
decreasing_by
  simp_wf
  omega

/-- compress_image: passes starts at 0, size is measured, then the loop runs
with the class constants FILE_SIZE_LIMIT and MAX_RESIZE_PASSES. -/
def compress_image {α : Type} (sz : α → Nat) (shrink : α → α) (st : α) : Nat × α :=
  compress_image_loop sz shrink FILE_SIZE_LIMIT MAX_RESIZE_PASSES 0 st

lemma compress_image_loop_spec {α : Type} (sz : α → Nat) (shrink : α → α)
    (limit maxPasses n : Nat) :
    ∀ (passes : Nat) (st : α), maxPasses + 1 - passes ≤ n → passes ≤ maxPasses + 1 →
      (compress_image_loop sz shrink limit maxPasses passes st).1 ≤ maxPasses + 1 ∧
      passes ≤ (compress_image_loop sz shrink limit maxPasses passes st).1 ∧
      (sz (compress_image_loop sz shrink limit maxPasses passes st).2 ≤ limit ∨
        (compress_image_loop sz shrink limit maxPasses passes st).1 = maxPasses + 1) := by
  induction n with
  | zero =>
    intro passes st hn hp
    rw [compress_image_loop, dif_neg (by omega)]
    exact ⟨hp, le_refl _, Or.inr (by omega)⟩
  | succ n ih =>
    intro passes st hn hp
    rw [compress_image_loop]
    by_cases h : sz st > limit ∧ ¬ (passes > maxPasses)
    · rw [dif_pos h]
      obtain ⟨a, b, c⟩ := ih (passes + 1) (shrink st) (by omega) (by omega)
      exact ⟨a, by omega, c⟩
    · rw [dif_neg h]
      rcases not_and_or.mp h with h1 | h2
      · refine ⟨hp, le_refl _, Or.inl ?_⟩
        show sz st ≤ limit
        omega
      · exact ⟨hp, le_refl _, Or.inr (by omega)⟩

lemma compress_image_loop_const {α : Type} (sz : α → Nat) (shrink : α → α)
    (limit maxPasses n : Nat) (hall : ∀ s, sz s > limit) :
    ∀ (passes : Nat) (st : α), maxPasses + 1 - passes ≤ n → passes ≤ maxPasses + 1 →
      (compress_image_loop sz shrink limit maxPasses passes st).1 = maxPasses + 1 := by
  induction n with
  | zero =>
    intro passes st hn hp
    rw [compress_image_loop, dif_neg (by omega)]
    omega
  | succ n ih =>
    intro passes st hn hp
    rw [compress_image_loop]
    by_cases h : sz st > limit ∧ ¬ (passes > maxPasses)
    · rw [dif_pos h]
      exact ih (passes + 1) (shrink st) (by omega) (by omega)
    · rw [dif_neg h]
      have := hall st
      omega

/-- C1 (amended): for every input whose size starts above FILE_SIZE_LIMIT,
compress_image performs at most MAX_RESIZE_PASSES + 1 = 51 re-encode passes
(the guard not passes > maxPasses still admits passes = 50 into the body),
and when it stops either the size is at most the limit or the pass counter
equals exactly 51. -/
theorem compress_image_pass_bound {α : Type} (sz : α → Nat) (shrink : α → α)
    (st : α) (h : sz st > FILE_SIZE_LIMIT) :
    (compress_image sz shrink st).1 ≤ MAX_RESIZE_PASSES + 1 ∧
    (sz (compress_image sz shrink st).2 ≤ FILE_SIZE_LIMIT ∨
      (compress_image sz shrink st).1 = MAX_RESIZE_PASSES + 1) := by
  obtain ⟨a, _, c⟩ := compress_image_loop_spec sz shrink FILE_SIZE_LIMIT MAX_RESIZE_PASSES
    (MAX_RESIZE_PASSES + 1) 0 st (by omega) (by omega)
  exact ⟨a, c⟩

/-- C1 witness: a 2000000-byte file halved per pass drops under the limit. -/
theorem compress_image_pass_bound_witness :
    (fun n : Nat => n) 2000000 > FILE_SIZE_LIMIT ∧
    ((compress_image (fun n : Nat => n) (fun n => n / 2) 2000000).1 ≤ MAX_RESIZE_PASSES + 1 ∧
      ((fun n : Nat => n) ((compress_image (fun n : Nat => n) (fun n => n / 2) 2000000).2) ≤ FILE_SIZE_LIMIT ∨
        (compress_image (fun n : Nat => n) (fun n => n / 2) 2000000).1 = MAX_RESIZE_PASSES + 1)) :=
  ⟨by norm_num [FILE_SIZE_LIMIT],
    compress_image_pass_bound (fun n : Nat => n) (fun n => n / 2) 2000000
      (by norm_num [FILE_SIZE_LIMIT])⟩

/-- C1 counterexample: an image whose measured size stays 1000001 on every
pass makes compress_image run 51 re-encode passes and stop with the size
still above the limit, refuting both the at-most-50 bound and the
stops-with-passes-equal-50 clause of the claim. -/
theorem compress_image_counterexample :
    (compress_image (fun _ : Unit => 1000001) (fun s => s) ()).1 = 51 ∧
    ¬ ((compress_image (fun _ : Unit => 1000001) (fun s => s) ()).1 ≤ 50) := by
  have h := compress_image_loop_const (fun _ : Unit => 1000001) (fun s => s)
    FILE_SIZE_LIMIT MAX_RESIZE_PASSES (MAX_RESIZE_PASSES + 1)
    (by intro s; norm_num [FILE_SIZE_LIMIT]) 0 () (by omega) (by omega)
  unfold compress_image
  rw [h]
  norm_num [MAX_RESIZE_PASSES]

/-- One scripted result of sending the prepared request: an HTTP response
with its status code and a flag telling whether the body contains the
literal substring SizeLimitExceededException:, or one of the transport
exceptions the requests library can raise. -/
inductive SendResult : Type
  | response (status : Nat) (marker : Bool)
  | connError
  | timeout
  | otherReqError
deriving DecidableEq

/-- Observable outcome of one upload_image call: the boolean it returns
(none only when the scripted transport ran out of responses, a model
artifact real execution never hits), how many times compress_image ran, and
how many soft failures were recorded through self.error. -/
structure UploadRun where
  result : Option Bool
  compressCalls : Nat
  softFailures : Nat
deriving DecidableEq

/-- upload_image over a scripted transport: the k-th list element is what
the k-th send attempt produces.  post returns True on status 200
(requests.codes.ok), raise_for_status raises HTTPError exactly on statuses
400..599, and post returns False on any other status without raising.
upload_image catches ConnectionError, Timeout, HTTPError and
RequestException; in the HTTPError branch, exactly when the status is 500
and the body contains the marker, it runs compress_image and recurses on
the same path, otherwise each caught exception records one soft failure via
self.error and the function falls through to return False. -/
def upload_image : List SendResult → UploadRun
  | [] => ⟨none, 0, 0⟩
  | SendResult.response s marker :: rest =>
    if s = 200 then ⟨some true, 0, 0⟩
    else if 400 ≤ s ∧ s < 600 then
      if s = 500 ∧ marker then
        let r := upload_image rest
        ⟨r.result, r.compressCalls + 1, r.softFailures⟩
      else ⟨some false, 0, 1⟩
    else ⟨some false, 0, 0⟩
  | SendResult.connError :: _ => ⟨some false, 0, 1⟩
  | SendResult.timeout :: _ => ⟨some false, 0, 1⟩
  | SendResult.otherReqError :: _ => ⟨some false, 0, 1⟩

/-- C3 counterexample: a 301 response makes upload_image return false with
no compress pass but also with no soft failure recorded (post returns False
without raising for statuses outside 400..599, so no except branch runs),
contradicting the clause that every non-2xx response other than the trigger
records a soft failure. -/
theorem upload_image_counterexample :
    upload_image [SendResult.response 301 false] = ⟨some false, 0, 0⟩ := rfl

/-- C3 (amended): the compress-and-retry cycle is invoked iff the status is
500 and the body contains the marker, and then the whole upload is retried
on the remaining script; a 4xx or 5xx response other than the trigger
records one soft failure and returns false without compressing; any other
non-200 status outside 400..599 returns false without compressing and
without recording a soft failure. -/
theorem upload_image_retry_contract (s : Nat) (marker : Bool) (rest : List SendResult) :
    (s = 500 ∧ marker = true →
      upload_image (SendResult.response s marker :: rest) =
        ⟨(upload_image rest).result, (upload_image rest).compressCalls + 1,
          (upload_image rest).softFailures⟩) ∧
    (¬ (s = 500 ∧ marker = true) →
      (upload_image (SendResult.response s marker :: rest)).compressCalls = 0) ∧
    ((400 ≤ s ∧ s < 600) ∧ ¬ (s = 500 ∧ marker = true) →
      upload_image (SendResult.response s marker :: rest) = ⟨some false, 0, 1⟩) ∧
    (¬ s = 200 → ¬ (400 ≤ s ∧ s < 600) →
      upload_image (SendResult.response s marker :: rest) = ⟨some false, 0, 0⟩) := by
  refine ⟨?_, ?_, ?_, ?_⟩
  · rintro ⟨rfl, rfl⟩
    rfl
  · intro h
    by_cases h200 : s = 200
    · subst h200; rfl
    · by_cases h45 : 400 ≤ s ∧ s < 600
      · simp [upload_image, h200, h45, h]
      · simp [upload_image, h200, h45]
  · rintro ⟨h45, hnt⟩
    have h200 : ¬ s = 200 := by omega
    simp [upload_image, h200, h45, hnt]
  · intro h200 h45
    simp [upload_image, h200, h45]

/-- C3 witness: a 404 response records one soft failure and returns false. -/
theorem upload_image_retry_contract_witness :
    upload_image [SendResult.response 404 false] = ⟨some false, 0, 1⟩ :=
  (upload_image_retry_contract 404 false []).2.2.1 ⟨by decide, by decide⟩

/-- C4 counterexample: a 201 Created response, a 2xx success status, makes
post return False (only status 200 returns True, and raise_for_status does
not raise below 400), so the upload returns false, not true. -/
theorem upload_image_2xx_counterexample :
    (upload_image [SendResult.response 201 false]).result = some false := rfl

/-- C4 (amended): among the 2xx success statuses, the upload returns true
exactly for status 200; every other 2xx status makes post return False
without raising and the upload returns false. -/
theorem upload_image_2xx (s : Nat) (marker : Bool) (rest : List SendResult)
    (h1 : 200 ≤ s) (h2 : s < 300) :
    upload_image (SendResult.response s marker :: rest) =
      ⟨some (decide (s = 200)), 0, 0⟩ := by
  by_cases h200 : s = 200
  · subst h200; rfl
  · have h45 : ¬ (400 ≤ s ∧ s < 600) := by omega
    simp [upload_image, h200, h45]

/-- C4 witness: status 204 is a 2xx status and the upload returns false. -/
theorem upload_image_2xx_witness :
    upload_image [SendResult.response 204 false] = ⟨some (decide (204 = 200)), 0, 0⟩ :=
  upload_image_2xx 204 false [] (by decide) (by decide)

/-- C8: a transport-level connection failure or timeout on the send makes
upload_image return false without any exception escaping (the except
branches catch both), records the failure as one soft failure through
self.error, and never invokes compress_image. -/
theorem upload_image_transport_failure (rest : List SendResult) :
    upload_image (SendResult.connError :: rest) = ⟨some false, 0, 1⟩ ∧
    upload_image (SendResult.timeout :: rest) = ⟨some false, 0, 1⟩ :=
  ⟨rfl, rfl⟩

/-- The literal _page of the regex. -/
def pageLit : List Char := ['_', 'p', 'a', 'g', 'e']

/-- Whether the first list is an initial segment of the second. -/
def listBeginsWith : List Char → List Char → Bool
  | [], _ => true
  | _ :: _, [] => false
  | p :: ps, c :: cs => p = c && listBeginsWith ps cs

/-- Backtracking of the greedy quantifier in _page followed by one to six
digits with a negative lookahead for _page: try the digit count k first,
then k - 1, down to 1; a count succeeds when the text after those digits
does not begin with _page.  The argument after is the text following the
literal _page. -/
def pickDigits (after : List Char) : Nat → Option (List Char)
  | 0 => none
  | k + 1 =>
    if listBeginsWith pageLit (after.drop (k + 1)) then pickDigits after k
    else some (after.take (k + 1))

/-- One attempt of the regex at a fixed position: the text must begin with
_page, then one to six digits are matched greedily with backtracking under
the negative lookahead. -/
def matchFrom (l : List Char) : Option (List Char) :=
  if listBeginsWith pageLit l then
    let after := l.drop 5
    match pickDigits after (min (after.takeWhile Char.isDigit).length 6) with
    | some ds => some (pageLit ++ ds)
    | none => none
  else none

/-- re.search scans positions left to right and returns the first position
where the pattern matches. -/
def pageSearchAux : List Char → Option (List Char)
  | [] => none
  | c :: cs =>
    match matchFrom (c :: cs) with
    | some m => some m
    | none => pageSearchAux cs

/-- The Python regex search in get_new_filename. -/
def page_search (filename : List Char) : Option (List Char) :=
  pageSearchAux filename

/-- Position of the last dot in a list of characters, if any. -/
def lastDotPos : List Char → Option Nat
  | [] => none
  | c :: cs =>
    match lastDotPos cs with
    | some i => some (i + 1)
    | none => if c = '.' then some 0 else none

/-- os.path.splitext restricted to a bare filename (no path separators), as
applied to the filename component inside get_new_filename: the extension
starts at the last dot, unless every character before that dot is itself a
dot (leading dots of a filename never start an extension). -/
def splitext (s : List Char) : List Char × List Char :=
  match lastDotPos s with
  | none => (s, [])
  | some i =>
    if (s.take i).all (fun c => c = '.') then (s, [])
    else (s.take i, s.drop i)

/-- get_new_filename: an empty original filename gives the empty name (do
not rename); otherwise the name is h, the hawb number, a dash, the date
part of the construction-time timestamp, a dash, its time part, then the
regex match (or nothing) and the splitext extension (or nothing).  The two
strftime renderings of self.timestamp are abstracted as the given strings. -/
def get_new_filename (hawb dateStr timeStr filename : List Char) : List Char :=
  if filename = [] then []
  else
    ('h' :: hawb) ++ ('-' :: dateStr) ++ ('-' :: timeStr) ++
      (match page_search filename with
        | some m => m
        | none => []) ++
      (splitext filename).2

/-- Position of the last slash in a list of characters, if any. -/
def lastSlashPos : List Char → Option Nat
  | [] => none
  | c :: cs =>
    match lastSlashPos cs with
    | some i => some (i + 1)
    | none => if c = '/' then some 0 else none

/-- os.path.split for POSIX-style paths: head and tail around the last
slash, the head stripped of trailing slashes unless it consists only of
slashes. -/
def splitPath (p : List Char) : List Char × List Char :=
  match lastSlashPos p with
  | none => ([], p)
  | some k =>
    let head := p.take (k + 1)
    let tail := p.drop (k + 1)
    if head.all (fun c => c = '/') then (head, tail)
    else ((head.reverse.dropWhile (fun c => c = '/')).reverse, tail)

/-- os.path.join for one component: an absolute component replaces the
directory; otherwise the two parts are joined with a slash unless the
directory is empty or already ends in one. -/
def joinPath (d f : List Char) : List Char :=
  if listBeginsWith ['/'] f then f
  else if d = [] then f
  else if d.getLast? = some '/' then d ++ f
  else d ++ ('/' :: f)

/-- The destination path computed by rename_path: split the source path,
build the new filename from the instance hawb number and the
construction-time timestamp, and join it back onto the same directory. -/
def rename_target (hawb dateStr timeStr path : List Char) : List Char :=
  joinPath (splitPath path).1
    (get_new_filename hawb dateStr timeStr (splitPath path).2)

/-- C2 counterexample: on foo_page12_page3.tif the regex search returns
_page1, not _page3: the greedy digit run 12 fails the negative lookahead
because it is followed by _page, the engine backtracks to the one-digit
run 1 whose following text 2_page3.tif does not begin with _page, and the
leftmost match wins with that truncated marker. -/
theorem page_search_counterexample :
    page_search "foo_page12_page3.tif".toList = some "_page1".toList ∧
    page_search "foo_page12_page3.tif".toList ≠ some "_page3".toList := by
  exact ⟨by decide, by decide⟩

/-- C2 (amended): the marker copied into the new filename is the match at
the leftmost position where _page is followed by a digit run of one to six
digits, the longest run not followed by _page being taken first with
backtracking, so the selected digits may be a proper prefix of the full
digit run; for foo_page12_page3.tif the marker carried into the new name is
_page1. -/
theorem get_new_filename_page_marker (hawb dateStr timeStr : List Char) :
    get_new_filename hawb dateStr timeStr "foo_page12_page3.tif".toList =
      ('h' :: hawb) ++ ('-' :: dateStr) ++ ('-' :: timeStr) ++
        "_page1".toList ++ ".tif".toList := by
  have h1 : page_search "foo_page12_page3.tif".toList = some "_page1".toList := by decide
  have h2 : (splitext "foo_page12_page3.tif".toList).2 = ".tif".toList := by decide
  have h0 : ¬ ("foo_page12_page3.tif".toList = ([] : List Char)) := by decide
  rw [get_new_filename, if_neg h0, h1, h2]

/-- C9: the renaming timestamp is fixed once per instance at construction,
so two distinct source files in the same directory, with the same splitext
extension and no _page marker, are mapped by rename_path to the identical
destination path. -/
theorem rename_target_collision (hawb dateStr timeStr p1 p2 : List Char)
    (hne : p1 ≠ p2)
    (hdir : (splitPath p1).1 = (splitPath p2).1)
    (hf1 : (splitPath p1).2 ≠ []) (hf2 : (splitPath p2).2 ≠ [])
    (hext : (splitext (splitPath p1).2).2 = (splitext (splitPath p2).2).2)
    (hm1 : page_search (splitPath p1).2 = none)
    (hm2 : page_search (splitPath p2).2 = none) :
    rename_target hawb dateStr timeStr p1 = rename_target hawb dateStr timeStr p2 := by
  unfold rename_target get_new_filename
  rw [hdir, if_neg hf1, if_neg hf2, hm1, hm2, hext]

/-- C9 witness: /tmp/a.tif and /tmp/b.tif collide on the same destination. -/
theorem rename_target_collision_witness :
    "/tmp/a.tif".toList ≠ "/tmp/b.tif".toList ∧
    rename_target "7".toList "20201010".toList "101010".toList "/tmp/a.tif".toList =
      rename_target "7".toList "20201010".toList "101010".toList "/tmp/b.tif".toList :=
  ⟨by decide,
    rename_target_collision "7".toList "20201010".toList "101010".toList
      "/tmp/a.tif".toList "/tmp/b.tif".toList (by decide) (by decide) (by decide)
      (by decide) (by decide) (by decide) (by decide)⟩

/-- The kind of a filesystem entry: a plain file or a directory. -/
inductive EntryKind : Type
  | file
  | dir
deriving DecidableEq

/-- Small filesystem model for rename_path: the entries that exist, each a
path with its kind, and a set of locked paths on which any operation raises
OSError, modelling permission failures.  Paths are plain character lists. -/
structure Fs where
  entries : List (List Char × EntryKind)
  locked : List (List Char)
deriving DecidableEq

/-- First entry with the given path, if any. -/
def lookupKind : List (List Char × EntryKind) → List Char → Option EntryKind
  | [], _ => none
  | e :: es, p => if e.1 = p then some e.2 else lookupKind es p

/-- The kind of the entry at a path, if the path exists. -/
def Fs.kindOf (fs : Fs) (p : List Char) : Option EntryKind :=
  lookupKind fs.entries p

/-- Whether a path exists in the filesystem. -/
def Fs.has (fs : Fs) (p : List Char) : Bool :=
  (fs.kindOf p).isSome

/-- Whether operations on the path raise OSError. -/
def Fs.isLocked (fs : Fs) (p : List Char) : Bool :=
  decide (p ∈ fs.locked)

/-- q lies strictly inside the subtree rooted at p. -/
def isUnder (q p : List Char) : Bool :=
  listBeginsWith (p ++ ['/']) q

/-- Whether the directory at p has an entry strictly inside it. -/
def Fs.dirNonempty (fs : Fs) (p : List Char) : Bool :=
  fs.entries.any (fun e => isUnder e.1 p)

/-- Rewrites a path inside the moved subtree. -/
def movePath (src dst q : List Char) : List Char :=
  if q = src then dst
  else if isUnder q src then dst ++ q.drop src.length
  else q

/-- Carries out a successful rename: the entry previously at the
destination, if any, is replaced, and the source subtree moves to the
destination. -/
def Fs.moveEntry (fs : Fs) (src dst : List Char) : Fs :=
  ⟨(fs.entries.filter (fun e => decide (e.1 ≠ dst))).map
      (fun e => (movePath src dst e.1, e.2)), fs.locked⟩

/-- os.renames with POSIX os.rename semantics at its core: renaming a file
onto an existing plain file silently replaces it, as does renaming a
directory onto an empty directory; a non-empty destination directory, a
file-versus-directory kind mismatch, a missing source, a destination inside
the source, or a locked endpoint raises OSError (none).  The makedirs and
best-effort removedirs wrappers of os.renames are no-ops in rename_path,
whose source and destination always share one existing directory, so they
are not modelled. -/
def renames (fs : Fs) (src dst : List Char) : Option Fs :=
  if fs.isLocked src = true ∨ fs.isLocked dst = true then none
  else if src = dst then some fs
  else if isUnder dst src = true then none
  else
    match fs.kindOf src, fs.kindOf dst with
    | none, _ => none
    | some EntryKind.file, none => some (fs.moveEntry src dst)
    | some EntryKind.file, some EntryKind.file => some (fs.moveEntry src dst)
    | some EntryKind.file, some EntryKind.dir => none
    | some EntryKind.dir, none => some (fs.moveEntry src dst)
    | some EntryKind.dir, some EntryKind.file => none
    | some EntryKind.dir, some EntryKind.dir =>
      if fs.dirNonempty dst = true then none else some (fs.moveEntry src dst)

/-- shutil.rmtree: raises (none) when the target is missing, is locked, or
is a plain file (NotADirectoryError); otherwise removes the directory and
everything under it. -/
def rmtree (fs : Fs) (p : List Char) : Option Fs :=
  if fs.isLocked p = true then none
  else
    match fs.kindOf p with
    | none => none
    | some EntryKind.file => none
    | some EntryKind.dir =>
      some ⟨fs.entries.filter (fun e => !(decide (e.1 = p) || isUnder e.1 p)), fs.locked⟩

/-- Primitive filesystem operations attempted by rename_path, in order. -/
inductive FsOp : Type
  | renameAttempt
  | rmtreeDest
deriving DecidableEq

/-- rename_path after the destination path has been computed: try
os.renames once; on OSError, shutil.rmtree the destination and try
os.renames exactly once more; anything raised during that recovery is
caught by the outer handler, which reports the failure through self.error
and returns False (modelled as none).  The trace lists the primitive
operations attempted in order. -/
def rename_path (fs : Fs) (src dst : List Char) : Fs × Option (List Char) × List FsOp :=
  match renames fs src dst with
  | some fs1 => (fs1, some dst, [FsOp.renameAttempt])
  | none =>
    match rmtree fs dst with
    | some fs1 =>
      match renames fs1 src dst with
      | some fs2 =>
        (fs2, some dst, [FsOp.renameAttempt, FsOp.rmtreeDest, FsOp.renameAttempt])
      | none =>
        (fs1, none, [FsOp.renameAttempt, FsOp.rmtreeDest, FsOp.renameAttempt])
    | none => (fs, none, [FsOp.renameAttempt, FsOp.rmtreeDest])

lemma lookupKind_filter (l : List (List Char × EntryKind))
    (pred : List Char × EntryKind → Bool) (k : List Char)
    (hk : ∀ e ∈ l, e.1 = k → pred e = true) :
    lookupKind (l.filter pred) k = lookupKind l k := by
  induction l with
  | nil => rfl
  | cons e l ih =>
    have htl : ∀ x ∈ l, x.1 = k → pred x = true :=
      fun x hx => hk x (List.mem_cons_of_mem _ hx)
    by_cases hpe : pred e = true
    · rw [List.filter_cons, if_pos hpe]
      show (if e.1 = k then some e.2 else lookupKind (l.filter pred) k) =
        (if e.1 = k then some e.2 else lookupKind l k)
      by_cases hek : e.1 = k
      · rw [if_pos hek, if_pos hek]
      · rw [if_neg hek, if_neg hek, ih htl]
    · rw [List.filter_cons, if_neg hpe]
      have hek : ¬ e.1 = k := fun h1 => hpe (hk e (List.mem_cons_self e l) h1)
      show lookupKind (l.filter pred) k = (if e.1 = k then some e.2 else lookupKind l k)
      rw [if_neg hek, ih htl]

/-- C5 counterexample: with plain files at both the source and the
destination — exactly the same-directory collision the code produces within
one batch — the first os.renames silently replaces the destination file:
the move completes with the trace holding the single rename attempt, no
recursive delete of the destination ever happens and no retry occurs,
refuting the claim that a pre-existing entry at the destination is never
overwritten without first being cleared. -/
theorem rename_path_counterexample :
    (Fs.mk [("/d/a.tif".toList, EntryKind.file), ("/d/new.tif".toList, EntryKind.file)]
        []).has "/d/new.tif".toList = true ∧
    rename_path
        (Fs.mk [("/d/a.tif".toList, EntryKind.file), ("/d/new.tif".toList, EntryKind.file)] [])
        "/d/a.tif".toList "/d/new.tif".toList =
      (Fs.mk [("/d/new.tif".toList, EntryKind.file)] [], some "/d/new.tif".toList,
        [FsOp.renameAttempt]) :=
  ⟨by decide, by decide⟩

/-- C5 (amended): when an entry already exists at the destination of a
file move, three regimes occur.  A plain-file destination with no
permission failure is silently replaced by the first os.renames: the move
completes after a single attempt, with no clearing and no retry.  A
plain-file destination whose first attempt raises for another reason
(permissions) makes the recovery rmtree itself raise NotADirectoryError, so
the operation fails with the filesystem, and in particular the source,
untouched.  A directory destination blocks the first attempt; the
destination is then cleared by a recursive delete and the move is retried
exactly once — a successful call cleared the destination first, and if the
retry also fails the call returns the failure signal with the source entry
still present. -/
theorem rename_path_dest_exists (fs : Fs) (src dst : List Char)
    (hsrck : fs.kindOf src = some EntryKind.file)
    (hdst : fs.has dst = true)
    (hne : src ≠ dst)
    (hu1 : isUnder src dst = false) (hu2 : isUnder dst src = false) :
    (fs.kindOf dst = some EntryKind.file ∧ fs.isLocked src = false ∧
        fs.isLocked dst = false →
      (rename_path fs src dst).2.1 = some dst ∧
      (rename_path fs src dst).2.2 = [FsOp.renameAttempt]) ∧
    (fs.kindOf dst = some EntryKind.file ∧
        (fs.isLocked src = true ∨ fs.isLocked dst = true) →
      rename_path fs src dst = (fs, none, [FsOp.renameAttempt, FsOp.rmtreeDest])) ∧
    (fs.kindOf dst = some EntryKind.dir →
      ((rename_path fs src dst).2.2 = [FsOp.renameAttempt, FsOp.rmtreeDest] ∨
        (rename_path fs src dst).2.2 =
          [FsOp.renameAttempt, FsOp.rmtreeDest, FsOp.renameAttempt]) ∧
      ((rename_path fs src dst).2.1 = none →
        (rename_path fs src dst).1.kindOf src = some EntryKind.file) ∧
      (∀ p, (rename_path fs src dst).2.1 = some p → p = dst ∧
        (rename_path fs src dst).2.2 =
          [FsOp.renameAttempt, FsOp.rmtreeDest, FsOp.renameAttempt])) := by
  refine ⟨?_, ?_, ?_⟩
  · rintro ⟨hdstk, hl1, hl2⟩
    have hr : renames fs src dst = some (fs.moveEntry src dst) := by
      unfold renames
      rw [if_neg (by simp [hl1, hl2]), if_neg hne, if_neg (by simp [hu2]), hsrck, hdstk]
    have heq : rename_path fs src dst =
        (fs.moveEntry src dst, some dst, [FsOp.renameAttempt]) := by
      simp only [rename_path, hr]
    rw [heq]
    exact ⟨rfl, rfl⟩
  · rintro ⟨hdstk, hlck⟩
    have hr : renames fs src dst = none := by
      unfold renames
      rw [if_pos hlck]
    have hrm : rmtree fs dst = none := by
      unfold rmtree
      by_cases hld : fs.isLocked dst = true
      · rw [if_pos hld]
      · rw [if_neg hld, hdstk]
    simp only [rename_path, hr, hrm]
  · intro hdstk
    have hr : renames fs src dst = none := by
      unfold renames
      by_cases hlck : fs.isLocked src = true ∨ fs.isLocked dst = true
      · rw [if_pos hlck]
      · rw [if_neg hlck, if_neg hne, if_neg (by simp [hu2]), hsrck, hdstk]
    by_cases hld : fs.isLocked dst = true
    · have hrm : rmtree fs dst = none := by
        unfold rmtree
        rw [if_pos hld]
      have heq : rename_path fs src dst =
          (fs, none, [FsOp.renameAttempt, FsOp.rmtreeDest]) := by
        simp only [rename_path, hr, hrm]
      rw [heq]
      exact ⟨Or.inl rfl, fun _ => hsrck, fun p hp => by simp at hp⟩
    · have hrm : rmtree fs dst =
          some ⟨fs.entries.filter (fun e => !(decide (e.1 = dst) || isUnder e.1 dst)),
            fs.locked⟩ := by
        unfold rmtree
        rw [if_neg hld, hdstk]
      have hsrc1 : (Fs.mk (fs.entries.filter
          (fun e => !(decide (e.1 = dst) || isUnder e.1 dst))) fs.locked).kindOf src =
          some EntryKind.file := by
        have hkeep : ∀ e ∈ fs.entries, e.1 = src →
            (!(decide (e.1 = dst) || isUnder e.1 dst)) = true := by
          intro e he h1
          rw [h1]
          simp [hne, hu1]
        show lookupKind (fs.entries.filter
            (fun e => !(decide (e.1 = dst) || isUnder e.1 dst))) src = some EntryKind.file
        rw [lookupKind_filter _ _ _ hkeep]
        exact hsrck
      cases hsec : renames ⟨fs.entries.filter
          (fun e => !(decide (e.1 = dst) || isUnder e.1 dst)), fs.locked⟩ src dst with
      | some fs2 =>
        have heq : rename_path fs src dst = (fs2, some dst,
            [FsOp.renameAttempt, FsOp.rmtreeDest, FsOp.renameAttempt]) := by
          simp only [rename_path, hr, hrm, hsec]
        rw [heq]
        exact ⟨Or.inr rfl, fun hc => by simp at hc,
          fun p hp => ⟨(Option.some.inj hp).symm, rfl⟩⟩
      | none =>
        have heq : rename_path fs src dst =
            (⟨fs.entries.filter (fun e => !(decide (e.1 = dst) || isUnder e.1 dst)),
              fs.locked⟩, none,
              [FsOp.renameAttempt, FsOp.rmtreeDest, FsOp.renameAttempt]) := by
          simp only [rename_path, hr, hrm, hsec]
        rw [heq]
        exact ⟨Or.inr rfl, fun _ => hsrc1, fun p hp => by simp at hp⟩

/-- A batch directory in which a directory already occupies the computed
destination path. -/
def fsDirDest : Fs :=
  ⟨[("/d/a.tif".toList, EntryKind.file), ("/d/new.tif".toList, EntryKind.dir),
    ("/d/new.tif/x".toList, EntryKind.file)], []⟩

/-- C5 witness: a non-empty directory sits at the destination, so the
clear-and-retry path runs and the retry happens exactly once after the
recursive delete. -/
theorem rename_path_dest_exists_witness :
    fsDirDest.kindOf "/d/new.tif".toList = some EntryKind.dir ∧
    (((rename_path fsDirDest "/d/a.tif".toList "/d/new.tif".toList).2.2 =
        [FsOp.renameAttempt, FsOp.rmtreeDest] ∨
      (rename_path fsDirDest "/d/a.tif".toList "/d/new.tif".toList).2.2 =
        [FsOp.renameAttempt, FsOp.rmtreeDest, FsOp.renameAttempt]) ∧
     ((rename_path fsDirDest "/d/a.tif".toList "/d/new.tif".toList).2.1 = none →
       (rename_path fsDirDest "/d/a.tif".toList "/d/new.tif".toList).1.kindOf
         "/d/a.tif".toList = some EntryKind.file) ∧
     (∀ p, (rename_path fsDirDest "/d/a.tif".toList "/d/new.tif".toList).2.1 = some p →
       p = "/d/new.tif".toList ∧
       (rename_path fsDirDest "/d/a.tif".toList "/d/new.tif".toList).2.2 =
         [FsOp.renameAttempt, FsOp.rmtreeDest, FsOp.renameAttempt])) :=
  ⟨by decide,
    (rename_path_dest_exists fsDirDest "/d/a.tif".toList "/d/new.tif".toList
      (by decide) (by decide) (by decide) (by decide) (by decide)).2.2 (by decide)⟩

/-- An event emitted by the background runner: one outcome per processed
item, carrying the integer result of uploader.run and the item, or the
terminal done signal. -/
inductive Event (α : Type) : Type
  | outcome (r : Nat) (item : α)
  | done
deriving DecidableEq

/-- BGRunner.run over the batch present in the task queue: while the queue
is not empty, dequeue the next item in FIFO order, run the uploader on it
and emit one result event; once the queue is observed empty the loop breaks
and the done signal is emitted. -/
def bgrunner_run {α : Type} (upload : α → Nat) : List α → List (Event α)
  | [] => [Event.done]
  | x :: xs => Event.outcome (upload x) x :: bgrunner_run upload xs

/-- C6: the events of a drained batch are exactly one outcome per item in
FIFO submission order followed by the done signal, so the done signal is
strictly after every outcome and is the last event of every batch. -/
theorem bgrunner_run_fifo {α : Type} (upload : α → Nat) (tasks : List α) :
    bgrunner_run upload tasks =
      tasks.map (fun x => Event.outcome (upload x) x) ++ [Event.done] ∧
    (bgrunner_run upload tasks).getLast? = some Event.done := by
  have h : bgrunner_run upload tasks =
      tasks.map (fun x => Event.outcome (upload x) x) ++ [Event.done] := by
    induction tasks with
    | nil => rfl
    | cons x xs ih => simp [bgrunner_run, ih]
  refine ⟨h, ?_⟩
  rw [h]
  simp

/-- Outcome of one process_images call: the returned code in attended mode,
whether the worker thread was started, the paths put on the task queue, and
the number of batch-level error reports.  In silent mode the code instead
waits and returns the aggregate of examine_bg_results, modelled separately. -/
structure BatchRun where
  retval : Nat
  workerStarted : Bool
  enqueued : List (List Char)
  batchErrors : Nat
deriving DecidableEq

/-- process_images over the files found in the directory, with the rename
and convert stages abstracted as fallible per-file functions (each returns
its falsy failure signal as none): rename every file and filter away
failures; zero survivors report one batch-level error and return 1 before
the worker thread exists; otherwise convert and filter the same way; with
survivors the worker thread is started and the converted paths are queued
in order. -/
def process_images (rename convert : List Char → Option (List Char))
    (files : List (List Char)) : BatchRun :=
  let renamed := (files.map rename).filterMap id
  if renamed.length = 0 then ⟨1, false, [], 1⟩
  else
    let converted := (renamed.map convert).filterMap id
    if converted.length = 0 then ⟨1, false, [], 1⟩
    else ⟨0, true, converted, 0⟩

/-- C7: if every candidate file fails the renaming step, or every renamed
file fails the conversion step, process_images reports exactly one
batch-level failure, returns 1, never starts the worker thread and enqueues
nothing. -/
theorem process_images_zero_survivors (rename convert : List Char → Option (List Char))
    (files : List (List Char))
    (h : (∀ f ∈ files, rename f = none) ∨
      ((files.map rename).filterMap id ≠ [] ∧
        ∀ g ∈ (files.map rename).filterMap id, convert g = none)) :
    process_images rename convert files = ⟨1, false, [], 1⟩ := by
  cases h with
  | inl hall =>
    have hren : (files.map rename).filterMap id = [] := by
      rw [List.filterMap_eq_nil_iff]
      intro a ha
      obtain ⟨f, hf, rfl⟩ := List.mem_map.mp ha
      exact hall f hf
    have hlen0 : ((files.map rename).filterMap id).length = 0 := by
      rw [hren]; rfl
    simp only [process_images]
    rw [if_pos hlen0]
  | inr hconv =>
    obtain ⟨hne, hall⟩ := hconv
    have hcv : (((files.map rename).filterMap id).map convert).filterMap id = [] := by
      rw [List.filterMap_eq_nil_iff]
      intro a ha
      obtain ⟨g, hg, rfl⟩ := List.mem_map.mp ha
      exact hall g hg
    have hlen : ¬ ((files.map rename).filterMap id).length = 0 := by
      simpa [List.length_eq_zero] using hne
    have hlen0 : ((((files.map rename).filterMap id).map convert).filterMap id).length = 0 := by
      rw [hcv]; rfl
    simp only [process_images]
    rw [if_neg hlen, if_pos hlen0]

/-- C7 witness: one candidate whose rename fails. -/
theorem process_images_zero_survivors_witness :
    process_images (fun _ => none) (fun _ => none) ["a".toList] = ⟨1, false, [], 1⟩ :=
  process_images_zero_survivors (fun _ => none) (fun _ => none) ["a".toList]
    (Or.inl (fun _ _ => rfl))

/-- The reporting branch taken by examine_bg_results. -/
inductive Report : Type
  | someFailed
  | negativeCount
  | allGood
deriving DecidableEq

/-- examine_bg_results: keep the second component of every background
result whose first component is nonzero, count the kept failures as a
Python int, and branch on the sign of that count: positive reports the
failing files, negative would report Could not upload file, zero reports
success. -/
def examine_bg_results (bg_results : List (Int × List Char)) : Int × Report :=
  let failures := (bg_results.filter (fun x => decide (x.1 ≠ 0))).map (fun x => x.2)
  let num : Int := failures.length
  (num,
    if num > 0 then Report.someFailed
    else if num < 0 then Report.negativeCount
    else Report.allGood)

/-- C10: the failure count is the length of the failures list, hence never
negative, so the branch reporting Could not upload file for a negative
count is unreachable for every possible list of background results. -/
theorem examine_bg_results_nonneg (bg_results : List (Int × List Char)) :
    0 ≤ (examine_bg_results bg_results).1 ∧
    (examine_bg_results bg_results).2 ≠ Report.negativeCount := by
  have hsnd : (examine_bg_results bg_results).2 =
      (if (0 : Int) < ((bg_results.filter (fun x => decide (x.1 ≠ 0))).map
          (fun x => x.2)).length then Report.someFailed
        else if (((bg_results.filter (fun x => decide (x.1 ≠ 0))).map
            (fun x => x.2)).length : Int) < 0 then Report.negativeCount
        else Report.allGood) := rfl
  refine ⟨Int.natCast_nonneg _, ?_⟩
  rw [hsnd]
  split
  · simp
  · split
    · next h2 => exact absurd h2 (not_lt.mpr (Int.natCast_nonneg _))
    · simp

end ImageUploader
